import Mathlib

/-!
# dock2box: client library and server start-up

A shallow embedding of

* `src/client/client.go`  (`Client.Create`, `Client.Get`, `Client.Exist`, `Client.All`),
* `src/client/tenant.go`  (`TenantResource.Create`, `TenantResource.Get`, `TenantResource.All`),
* `src/server/main.go`    (`clientHandler`, and the registration, lease, watch and
  routing parts of `main`).

The network, the JSON codec, the key/value store and the logger are collaborators
outside the repository.  They appear as parameters (what a call returned) and as
effects (what was called, what was logged); the control flow between them is the
code's.
-/

namespace Dock2Box

/-! ## Go values shared by both programs -/

/-- Go `[]byte` holding text (request and response bodies). -/
abbrev Bytes := String

/-- Go `error` values, by the dynamic type that produced them.  `errorString` is
what `fmt.Errorf` builds from a format without a wrapping verb; the others
come from collaborators (`net/http`, `ioutil.ReadAll`, `encoding/json`, the
key/value store). -/
inductive GoError where
  | errorString (msg : String)
  | transport (msg : String)
  | read (msg : String)
  | codec (msg : String)
  | store (msg : String)
  deriving DecidableEq, Repr

/-- The dynamic type of an error value, the only thing a type switch can see. -/
inductive ErrorKind where
  | errorString | transport | read | codec | store
  deriving DecidableEq, Repr

/-- Dynamic type of a Go error. -/
def GoError.kind : GoError → ErrorKind
  | .errorString _ => .errorString
  | .transport _ => .transport
  | .read _ => .read
  | .codec _ => .codec
  | .store _ => .store

/-- Method `Error()` of a Go error: its message. -/
def GoError.Error : GoError → String
  | .errorString m => m
  | .transport m => m
  | .read m => m
  | .codec m => m
  | .store m => m

/-! ## `src/client/client.go` -/

/-- An `*http.Response` as far as the client reads it: `StatusCode`, and what
`ioutil.ReadAll(resp.Body)` returns (the bytes read and the error, if any). -/
structure Response where
  StatusCode : Int
  body : Bytes
  readErr : Option GoError
  deriving DecidableEq, Repr

/-- An outgoing request: method, URL, content type and payload. -/
structure Request where
  method : String
  url : String
  contentType : String
  payload : Bytes
  deriving DecidableEq, Repr

/-- The HTTP collaborator: what `http.Get` / `client.Do` return for a request. -/
abbrev Transport := Request → Except GoError Response

/-- The struct `Client`, with the field the four methods read. -/
structure Client where
  URL : String
  deriving DecidableEq, Repr

/-- The request `http.Get(u)` sends. -/
def getRequest (u : String) : Request :=
  { method := "GET", url := u, contentType := "", payload := "" }

/-- The message of `fmt.Errorf("Get %s: failed with status code %d", url, code)`. -/
def statusMessage (url : String) (code : Int) : String :=
  "Get " ++ url ++ ": failed with status code " ++ toString code

/-- A run-time panic of the Go program. -/
inductive Panic where
  | nilDereference
  deriving DecidableEq, Repr

/-- `func (c Client) Create(endp string, s interface{}) ([]byte, error)`.
`marshalled` is the result of `json.MarshalIndent(&s, "", "  ")`, whose error the
code drops.  `parses` is `url.Parse`, the one way `http.NewRequest` fails for the
method `POST`: its error is dropped too, and `req.Header.Set` then dereferences
the nil request.  The status of the response is printed and not inspected; the
error of `ioutil.ReadAll` is dropped. -/
def Client.Create (c : Client) (parses : String → Bool) (http : Transport) (endp : String)
    (marshalled : Bytes) : Except Panic (Bytes × Option GoError) :=
  let url := c.URL ++ endp
  if parses url then
    match http { method := "POST", url := url, contentType := "application/json",
                 payload := marshalled } with
    | .error err => .ok ("", some err)
    | .ok resp => .ok (resp.body, none)
  else
    .error .nilDereference

/-- `func (c Client) Get(endp string, name string) ([]byte, error)`. -/
def Client.Get (c : Client) (http : Transport) (endp name : String) :
    Bytes × Option GoError :=
  let url := c.URL ++ endp ++ "/" ++ name
  match http (getRequest (url ++ "?envelope=false")) with
  | .error err => ("", some err)
  | .ok resp =>
    if resp.StatusCode ≠ 200 then
      ("", some (.errorString (statusMessage url resp.StatusCode)))
    else
      match resp.readErr with
      | some err => ("", some err)
      | none => (resp.body, none)

/-- `func (c Client) Exist(endp string, name string) (bool, error)`. -/
def Client.Exist (c : Client) (http : Transport) (endp name : String) :
    Bool × Option GoError :=
  let url := c.URL ++ endp ++ "/" ++ name
  match http (getRequest (url ++ "?envelope=false")) with
  | .error err => (false, some err)
  | .ok resp =>
    if resp.StatusCode = 404 then (false, none)
    else if resp.StatusCode = 200 then (true, none)
    else (false, some (.errorString (statusMessage url resp.StatusCode)))

/-- `func (c Client) All(endp string) ([]byte, error)`.  The status of the
response is not inspected. -/
def Client.All (c : Client) (http : Transport) (endp : String) :
    Bytes × Option GoError :=
  let url := c.URL ++ endp
  match http (getRequest (url ++ "?envelope=false")) with
  | .error err => ("", some err)
  | .ok resp =>
    match resp.readErr with
    | some err => ("", some err)
    | none => (resp.body, none)

/-! ## `src/client/tenant.go` -/

/-- The struct `Tenant`. -/
structure Tenant where
  ID : String
  Tenant : String
  deriving DecidableEq, Repr

/-- `func (r *TenantResource) Create(s *Tenant) (*Tenant, error)`.
`marshal` and `unmarshal` are `encoding/json` on `Tenant`. -/
def TenantResource.Create (c : Client) (parses : String → Bool) (http : Transport)
    (marshal : Tenant → Bytes) (unmarshal : Bytes → Except GoError Tenant) (s : Tenant) :
    Except Panic (Option Tenant × Option GoError) :=
  match c.Create parses http "/tenants" (marshal s) with
  | .error p => .error p
  | .ok (_, some err) => .ok (none, some err)
  | .ok (j, none) =>
    match unmarshal j with
    | .error err => .ok (none, some err)
    | .ok tenant => .ok (some tenant, none)

/-- `func (r *TenantResource) Get(name string) (*Tenant, error)`. -/
def TenantResource.Get (c : Client) (http : Transport)
    (unmarshal : Bytes → Except GoError Tenant) (name : String) : Option Tenant × Option GoError :=
  match c.Get http "/tenants" name with
  | (_, some err) => (none, some err)
  | (j, none) =>
    match unmarshal j with
    | .error err => (none, some err)
    | .ok tenant => (some tenant, none)

/-- `func (r *TenantResource) All() (*[]Tenant, error)`. -/
def TenantResource.All (c : Client) (http : Transport)
    (unmarshal : Bytes → Except GoError (List Tenant)) : Option (List Tenant) × Option GoError :=
  match c.All http "/tenants" with
  | (_, some err) => (none, some err)
  | (j, none) =>
    match unmarshal j with
    | .error err => (none, some err)
    | .ok tenants => (some tenants, none)

/-! ## `src/server/main.go` -/

/-- Modelled from the spec: the declaration of `model.Client` is not under `src/`.
The handler reads the four fields `Created`, `Updated`, `UUID` and `Name`, the
attributes the spec gives a Client Record; each is kept as printed by `%s`. -/
structure model.Client where
  Created : String
  Updated : String
  UUID : String
  Name : String
  deriving DecidableEq, Repr

/-- Modelled from the spec: the declaration of `model.Server` is not under `src/`.
A Server Record is a Resource Record (identifier, name, creation and last-updated
timestamps) keyed by hostname through its `Name`. -/
structure model.Server where
  UUID : String
  Name : String
  Created : String
  Updated : String
  deriving DecidableEq, Repr

/-- The `kvstore.KeyValue` interface, by what its methods return for one event:
`Event().Type`, `Key()`, `Decode(&model.Client{})`, `PrevValue()` (`none` is
`nil`) and `PrevDecode(&model.Client{})`. -/
structure KeyValue where
  EventType : String
  Key : String
  Decode : Except GoError model.Client
  PrevValue : Option Bytes
  PrevDecode : Except GoError model.Client

/-- One element of the lease keepalive channel; the loop reads its `Error`. -/
structure KeepAliveResponse where
  Error : Option GoError
  deriving DecidableEq, Repr

/-- The lines the server writes with `log.Printf` and `log.Print`. -/
inductive LogLine where
  | text (msg : String)
  | clientEvent (type key : String)
  | clientValue (c : model.Client)
  | clientPrevValue (c : model.Client)
  | error (err : GoError)
  deriving DecidableEq, Repr

/-- The text of a log line, from the format strings of `main.go`. -/
def LogLine.render : LogLine → String
  | .text msg => msg
  | .clientEvent type key => "client event: " ++ type ++ " key: " ++ key
  | .clientValue c =>
    "client value: created: " ++ c.Created ++ " updated: " ++ c.Updated ++
      " uuid: " ++ c.UUID ++ " hostname: " ++ c.Name
  | .clientPrevValue c =>
    "client prev. value: created: " ++ c.Created ++ " updated: " ++ c.Updated ++
      " uuid: " ++ c.UUID ++ " hostname: " ++ c.Name
  | .error err => err.Error

/-- What a run of the server does that is visible outside it: log lines, calls
on the datastore and on an event, and `log.Fatal` (which prints the error and
ends the process with `os.Exit(1)`). -/
inductive Effect where
  | log (line : LogLine)
  | queryServers (field value : String)
  | updateServer (s : model.Server)
  | createServer (s : model.Server)
  | keepAlive
  | recv (l : KeepAliveResponse)
  | watchStart (ns : String)
  | decode
  | prevDecode
  | fatal (err : GoError)
  deriving DecidableEq, Repr

/-- An effect that ends the process. -/
def Effect.isFatal : Effect → Bool
  | .fatal _ => true
  | _ => false

/-- The process was ended by a `log.Fatal` in this trace. -/
def exited (t : List Effect) : Bool := t.any Effect.isFatal

/-- The records passed to `ds.CreateServer`, in call order. -/
def createCalls : List Effect → List model.Server
  | [] => []
  | .createServer s :: t => s :: createCalls t
  | _ :: t => createCalls t

/-- The records passed to `ds.UpdateServer`, in call order. -/
def updateCalls : List Effect → List model.Server
  | [] => []
  | .updateServer s :: t => s :: updateCalls t
  | _ :: t => updateCalls t

/-- The responses the renewal loop took from the lease channel, in order. -/
def received : List Effect → List KeepAliveResponse
  | [] => []
  | .recv l :: t => l :: received t
  | _ :: t => received t

/-- `var clientHandler = kvstore.WatchHandler(func(kv kvstore.KeyValue) {...})`. -/
def clientHandler (kv : KeyValue) : List Effect :=
  [.log (.clientEvent kv.EventType kv.Key), .decode] ++
  match kv.Decode with
  | .error err => [.log (.error err)]
  | .ok c =>
    [.log (.clientValue c)] ++
    match kv.PrevValue with
    | none => []
    | some _ =>
      [.prevDecode] ++
      match kv.PrevDecode with
      | .error err => [.log (.error err)]
      | .ok c => [.log (.clientPrevValue c)]

/-- The store calls `main` makes, by what each returns: `QueryServers`,
`UpdateServer`, `CreateServer`, `Lease().KeepAlive()` (the channel is given by
the responses delivered on it) and `Watch(ns)...Start()` (the events delivered to
the handler while it runs, and the error it returns, if any). -/
structure model.Datastore where
  QueryServers : String → String → Except GoError (List model.Server)
  UpdateServer : model.Server → Option GoError
  CreateServer : model.Server → Option GoError
  KeepAlive : Except GoError (List KeepAliveResponse)
  WatchStart : String → List KeyValue × Option GoError

/-- Lines 101-126 of `main`: find the server record of this host, then update it
or create it.  `hostname` is the result of `os.Hostname()`, `NewServer` is
`model.NewServer`.  The result is `none` when the process was ended. -/
def main.registerServer (hostname : String) (NewServer : String → model.Server) (ds : model.Datastore) :
    List Effect × Option model.Server :=
  let t0 : List Effect :=
    [.log (.text "find existing server in datastore"), .queryServers "Name" hostname]
  match ds.QueryServers "Name" hostname with
  | .error err => (t0 ++ [.fatal err], none)
  | .ok servers =>
    if h : servers.length > 0 then
      let s := servers[0]
      let t1 : List Effect := t0 ++ [.log (.text "update server in datastore"), .updateServer s]
      match ds.UpdateServer s with
      | some err => (t1 ++ [.fatal err], none)
      | none => (t1, some s)
    else
      let s := NewServer hostname
      let t1 : List Effect := t0 ++ [.log (.text "create new server"),
        .log (.text "create server in datastore"), .createServer s]
      match ds.CreateServer s with
      | some err => (t1 ++ [.fatal err], none)
      | none => (t1, some s)

/-- Lines 135-143 of `main`: the body of `for { l := <-ch; ... }`, run on the
responses delivered on the channel; after the last one the loop waits on `<-ch`. -/
def main.renewalLoop : List KeepAliveResponse → List Effect
  | [] => []
  | l :: rest =>
    [.recv l, .log (.text "send keepalive for lease")] ++
    (match l.Error with
     | some err => [.log (.error err)]
     | none => []) ++
    main.renewalLoop rest

/-- Delivery of a watch stream by the store: each event is handed to the handler,
in arrival order, for as long as the process is alive. -/
def dispatch (handler : KeyValue → List Effect) : List KeyValue → List Effect
  | [] => []
  | kv :: rest =>
    let t := handler kv
    if exited t then t else t ++ dispatch handler rest

/-- Lines 147-151 of `main`: the goroutine that starts the watch on `clients`. -/
def main.watchClients (ds : model.Datastore) : List Effect :=
  let r := ds.WatchStart "clients"
  let t : List Effect := .watchStart "clients" :: dispatch clientHandler r.1
  if exited t then t
  else
    match r.2 with
    | some err => t ++ [.fatal err]
    | none => t

/-- The three activities of lines 101-151, each with its own trace: the main
goroutine, the renewal goroutine and the watch goroutine. -/
structure Activities where
  startup : List Effect
  renewal : List Effect
  watch : List Effect

/-- Lines 101-151 of `main`. -/
def main.startActivities (hostname : String) (NewServer : String → model.Server) (ds : model.Datastore) :
    Activities :=
  match main.registerServer hostname NewServer ds with
  | (t, none) => { startup := t, renewal := [], watch := [] }
  | (t, some _) =>
    let t1 : List Effect := t ++ [.log (.text "create lease keepalive"), .keepAlive]
    match ds.KeepAlive with
    | .error err => { startup := t1 ++ [.fatal err], renewal := [], watch := [] }
    | .ok ch =>
      { startup := t1 ++ [.log (.text "create client watch")],
        renewal := main.renewalLoop ch,
        watch := main.watchClients ds }

/-- Some activity ended the process. -/
def Activities.exited (a : Activities) : Bool :=
  Dock2Box.exited a.startup || Dock2Box.exited a.renewal || Dock2Box.exited a.watch

/-- One registration on the router: `router.HandleFunc(path, h.X).Methods(m)`, or
`router.Handle(path, j.Authorized(http.HandlerFunc(h.X))).Methods(m)` when
`authorized` is set. -/
structure Route where
  path : String
  handler : String
  authorized : Bool
  method : String
  deriving DecidableEq, Repr

/-- Lines 160-235 of `main`: the registrations, in source order (the commented
out `DELETE` lines register nothing). -/
def main.routes : List Route :=
  [ ⟨"/login", "Login", false, "POST"⟩,
    ⟨"/renew", "Renew", false, "GET"⟩,
    ⟨"/verify", "Verify", false, "GET"⟩,
    ⟨"/api/clients", "AllClients", true, "GET"⟩,
    ⟨"/api/clients/{uuid}", "OneClient", true, "GET"⟩,
    ⟨"/api/hosts", "AllHosts", false, "GET"⟩,
    ⟨"/api/hosts", "CreateHost", false, "POST"⟩,
    ⟨"/api/hosts/{uuid}", "OneHost", false, "GET"⟩,
    ⟨"/api/hosts/{uuid}", "UpdateHost", false, "PUT"⟩,
    ⟨"/api/images", "AllImages", false, "GET"⟩,
    ⟨"/api/images", "CreateImage", false, "POST"⟩,
    ⟨"/api/images/{uuid}", "OneImage", false, "GET"⟩,
    ⟨"/api/images/{uuid}", "UpdateImage", false, "PUT"⟩,
    ⟨"/api/pools", "AllPools", false, "GET"⟩,
    ⟨"/api/pools", "CreatePool", false, "POST"⟩,
    ⟨"/api/pools/{uuid}", "OnePool", false, "GET"⟩,
    ⟨"/api/pools/{uuid}", "UpdatePool", false, "PUT"⟩,
    ⟨"/api/racks", "AllRacks", false, "GET"⟩,
    ⟨"/api/racks", "CreateRack", false, "POST"⟩,
    ⟨"/api/racks/{uuid}", "OneRack", false, "GET"⟩,
    ⟨"/api/racks/{uuid}", "UpdateRack", false, "PUT"⟩,
    ⟨"/api/roles", "AllRoles", false, "GET"⟩,
    ⟨"/api/roles", "CreateRole", false, "POST"⟩,
    ⟨"/api/roles/{uuid}", "OneRole", false, "GET"⟩,
    ⟨"/api/roles/{uuid}", "UpdateRole", false, "PUT"⟩,
    ⟨"/api/servers", "AllServers", true, "GET"⟩,
    ⟨"/api/servers/{uuid}", "OneServer", true, "GET"⟩,
    ⟨"/api/sites", "AllSites", false, "GET"⟩,
    ⟨"/api/sites", "CreateSite", false, "POST"⟩,
    ⟨"/api/sites/{uuid}", "OneSite", false, "GET"⟩,
    ⟨"/api/sites/{uuid}", "UpdateSite", false, "PUT"⟩,
    ⟨"/api/subnets", "AllSubnets", false, "GET"⟩,
    ⟨"/api/subnets", "CreateSubnet", false, "POST"⟩,
    ⟨"/api/subnets/{uuid}", "OneSubnet", false, "GET"⟩,
    ⟨"/api/subnets/{uuid}", "UpdateSubnet", false, "PUT"⟩,
    ⟨"/api/tenants", "AllTenants", false, "GET"⟩,
    ⟨"/api/tenants", "CreateTenant", false, "POST"⟩,
    ⟨"/api/tenants/{uuid}", "OneTenant", false, "GET"⟩,
    ⟨"/api/tenants/{uuid}", "UpdateTenant", false, "PUT"⟩ ]

/-- The route table has a registration for this method on this path template. -/
def registered (method path : String) : Bool :=
  main.routes.any fun r => r.method == method && r.path == path

/-- Path template of a kind's collection, `/api/{kind}`. -/
def collectionPath (kind : String) : String := "/api/" ++ kind

/-- Path template of one record of a kind; the router names the variable `uuid`. -/
def itemPath (kind : String) : String := "/api/" ++ kind ++ "/{uuid}"

/-- All four of `POST /api/{kind}`, `GET /api/{kind}`, `GET /api/{kind}/{id}` and
`PUT /api/{kind}/{id}` are registered. -/
def hasAllFour (kind : String) : Bool :=
  registered "POST" (collectionPath kind) && registered "GET" (collectionPath kind) &&
  registered "GET" (itemPath kind) && registered "PUT" (itemPath kind)

/-- The registrations whose path is the collection or the item path of a kind,
as (method, path, authorized). -/
def routesOf (kind : String) : List (String × String × Bool) :=
  (main.routes.filter fun r => r.path == collectionPath kind || r.path == itemPath kind).map
    fun r => (r.method, r.path, r.authorized)

/-! ## Inputs used in the examples -/

/-- A client of a server at `http://d2b`. -/
def demoClient : Client := ⟨"http://d2b"⟩

/-- A transport that answers every request with the given status and body. -/
def answer (code : Int) (body : Bytes) : Transport :=
  fun _ => .ok { StatusCode := code, body := body, readErr := none }

/-- A stand-in for `url.Parse` that accepts the URLs with an `http` scheme. -/
def wellFormed (url : String) : Bool := url.take 7 == "http://"

/-- A tenant to create. -/
def demoTenant : Tenant := { ID := "", Tenant := "t1" }

/-- The body of a conflict answer. -/
def conflictBody : Bytes := "\x7b\"error\": \"tenant t1 already exists\"\x7d"

/-- A hostname. -/
def demoHost : String := "node-1"

/-- A stand-in for `model.NewServer`. -/
def demoNewServer (hostname : String) : model.Server :=
  { UUID := "new", Name := hostname, Created := "now", Updated := "now" }

/-- The record already stored for the host. -/
def storedServer : model.Server :=
  { UUID := "s1", Name := "node-1", Created := "then", Updated := "then" }

/-- A store with no record for the host, on which every call succeeds and on
which nothing is delivered. -/
def emptyStore : model.Datastore :=
  { QueryServers := fun _ _ => .ok []
    UpdateServer := fun _ => none
    CreateServer := fun _ => none
    KeepAlive := .ok []
    WatchStart := fun _ => ([], none) }

/-- A store that holds a record for the host. -/
def populatedStore : model.Datastore :=
  { emptyStore with QueryServers := fun _ _ => .ok [storedServer] }

/-- A store on which registration and the lease succeed and the watch on
`clients` returns an error from `Start`. -/
def watchFailsStore : model.Datastore :=
  { populatedStore with WatchStart := fun _ => ([], some (.store "watch: connection lost")) }

/-- An event whose new value does not decode. -/
def malformedEvent : KeyValue :=
  { EventType := "update", Key := "/dock2box/clients/u1"
    Decode := .error (.codec "invalid character"), PrevValue := some "junk"
    PrevDecode := .error (.codec "invalid character") }

/-- The update of client `u1` from name `x` to name `y`. -/
def renameEvent : KeyValue :=
  { EventType := "update", Key := "/dock2box/clients/u1"
    Decode := .ok { Created := "t0", Updated := "t2", UUID := "u1", Name := "y" }
    PrevValue := some "prev"
    PrevDecode := .ok { Created := "t0", Updated := "t1", UUID := "u1", Name := "x" } }

/-- The creation of client `u1`: an event without a previous value. -/
def createEvent : KeyValue :=
  { EventType := "create", Key := "/dock2box/clients/u1"
    Decode := .ok { Created := "t0", Updated := "t0", UUID := "u1", Name := "" }
    PrevValue := none
    PrevDecode := .error (.codec "no previous value") }

/-- An event whose new value decodes and whose previous value is present and
does not decode. -/
def staleEvent : KeyValue :=
  { EventType := "update", Key := "/dock2box/clients/u1"
    Decode := .ok { Created := "t0", Updated := "t2", UUID := "u1", Name := "y" }
    PrevValue := some "junk"
    PrevDecode := .error (.codec "invalid character") }

/-- A keepalive response that carries an error. -/
def failedRenewal : KeepAliveResponse := { Error := some (.store "lease: timeout") }

/-- A keepalive response without an error. -/
def goodRenewal : KeepAliveResponse := { Error := none }

/-- The previous values a trace reports. -/
def prevReports : List Effect → List model.Client
  | [] => []
  | .log (.clientPrevValue c) :: t => c :: prevReports t
  | _ :: t => prevReports t

/-- The URL of one record, as `Get` and `Exist` build it. -/
def recordURL (c : Client) (endp name : String) : String :=
  c.URL ++ endp ++ "/" ++ name

/-! ## The client: `Exist`, `Get`, `Create`, `All` -/

/-- C1: whatever the probe request of `Client.Exist` comes back with, a 404
response gives `(false, nil)`, a 200 response gives `(true, nil)`, and an error is
returned only when the transport failed or the status is neither 200 nor 404; so
absence is never an error. -/
theorem Client.Exist_outcomes (c : Client) (http : Transport) (endp name : String) :
    (∀ resp, http (getRequest (recordURL c endp name ++ "?envelope=false")) = .ok resp →
      (resp.StatusCode = 404 → c.Exist http endp name = (false, none)) ∧
      (resp.StatusCode = 200 → c.Exist http endp name = (true, none))) ∧
    (∀ err, (c.Exist http endp name).2 = some err →
      http (getRequest (recordURL c endp name ++ "?envelope=false")) = .error err ∨
      ∃ resp, http (getRequest (recordURL c endp name ++ "?envelope=false")) = .ok resp ∧
        resp.StatusCode ≠ 200 ∧ resp.StatusCode ≠ 404) := by
  refine ⟨?_, ?_⟩
  · intro resp hresp
    constructor
    · intro h
      simp [Client.Exist, recordURL] at hresp ⊢
      simp [hresp, h]
    · intro h
      simp [Client.Exist, recordURL] at hresp ⊢
      simp [hresp, h]
  · intro err herr
    simp only [Client.Exist, recordURL] at herr ⊢
    cases hq : http (getRequest (c.URL ++ endp ++ "/" ++ name ++ "?envelope=false")) with
    | error e =>
      rw [hq] at herr
      simp at herr
      left
      rw [herr]
    | ok resp =>
      rw [hq] at herr
      right
      refine ⟨resp, rfl, ?_, ?_⟩
      · intro h200
        simp [h200] at herr
      · intro h404
        simp [h404] at herr

/-- C1, on a server that answers 404 and on one that answers 200. -/
theorem Client.Exist_outcomes_witness :
    demoClient.Exist (answer 404 "") "/tenants" "t1" = (false, none) ∧
    demoClient.Exist (answer 200 "") "/tenants" "t1" = (true, none) :=
  ⟨((Client.Exist_outcomes demoClient (answer 404 "") "/tenants" "t1").1 _ rfl).1 rfl,
   ((Client.Exist_outcomes demoClient (answer 200 "") "/tenants" "t1").1 _ rfl).2 rfl⟩

/-- C2 as stated fails: the error `Client.Get` returns for a 404 has the same
dynamic type as the one it returns for a 500, the type of a `fmt.Errorf` value. -/
theorem Client.Get_404_same_kind_as_500 :
    (demoClient.Get (answer 404 "") "/tenants" "t1").2.map GoError.kind = some .errorString ∧
    (demoClient.Get (answer 500 "") "/tenants" "t1").2.map GoError.kind = some .errorString ∧
    (demoClient.Get (answer 404 "") "/tenants" "t1").2 =
      some (.errorString "Get http://d2b/tenants/t1: failed with status code 404") ∧
    (demoClient.Get (answer 500 "") "/tenants" "t1").2 =
      some (.errorString "Get http://d2b/tenants/t1: failed with status code 500") := by
  decide

/-- C2, amended: for every response whose status is not 200, 404 included,
`Client.Get` returns no bytes and an error of the one type `fmt.Errorf` builds,
whose message is `Get <url>: failed with status code <code>` with the URL of the
record and the status code; `TenantResource.Get` returns no record and that same
error. -/
theorem Client.Get_non200 (c : Client) (http : Transport)
    (unmarshal : Bytes → Except GoError Tenant) (name : String) :
    (∀ endp resp, http (getRequest (recordURL c endp name ++ "?envelope=false")) = .ok resp →
      resp.StatusCode ≠ 200 →
      c.Get http endp name =
        ("", some (.errorString ("Get " ++ recordURL c endp name ++
          ": failed with status code " ++ toString resp.StatusCode))) ∧
      (c.Get http endp name).2.map GoError.kind = some .errorString) ∧
    (∀ resp, http (getRequest (recordURL c "/tenants" name ++ "?envelope=false")) = .ok resp →
      resp.StatusCode ≠ 200 →
      TenantResource.Get c http unmarshal name =
        (none, some (.errorString ("Get " ++ recordURL c "/tenants" name ++
          ": failed with status code " ++ toString resp.StatusCode)))) := by
  have key : ∀ endp resp,
      http (getRequest (recordURL c endp name ++ "?envelope=false")) = .ok resp →
      resp.StatusCode ≠ 200 →
      c.Get http endp name =
        ("", some (.errorString ("Get " ++ recordURL c endp name ++
          ": failed with status code " ++ toString resp.StatusCode))) := by
    intro endp resp hresp hcode
    simp only [recordURL] at hresp
    simp only [Client.Get, recordURL, hresp, statusMessage]
    simp [hcode]
  refine ⟨?_, ?_⟩
  · intro endp resp hresp hcode
    refine ⟨key endp resp hresp hcode, ?_⟩
    rw [key endp resp hresp hcode]
    rfl
  · intro resp hresp hcode
    simp only [TenantResource.Get]
    rw [key "/tenants" resp hresp hcode]

/-- C2 amended, on a server that answers 404 to the request for tenant `t1`. -/
theorem Client.Get_non200_witness :
    TenantResource.Get demoClient (answer 404 "") (fun _ => .ok demoTenant) "t1" =
      (none, some (.errorString "Get http://d2b/tenants/t1: failed with status code 404")) :=
  (Client.Get_non200 demoClient (answer 404 "") (fun _ => .ok demoTenant) "t1").2
    { StatusCode := 404, body := "", readErr := none } rfl (by decide)

/-- C3, the code at a conflict answer: `Client.Create` hands back the body of the
409 response with a nil error, and `TenantResource.Create` returns whatever
record the JSON decoder makes of that body, with a nil error when it decodes. -/
theorem Client.Create_conflict_returns_body (marshal : Tenant → Bytes)
    (unmarshal : Bytes → Except GoError Tenant) :
    demoClient.Create wellFormed (answer 409 conflictBody) "/tenants" (marshal demoTenant) =
      .ok (conflictBody, none) ∧
    TenantResource.Create demoClient wellFormed (answer 409 conflictBody) marshal unmarshal
        demoTenant =
      (match unmarshal conflictBody with
       | .ok tenant => .ok (some tenant, none)
       | .error err => .ok (none, some err)) := by
  have hurl : wellFormed (demoClient.URL ++ "/tenants") = true := by decide
  refine ⟨rfl, ?_⟩
  simp only [TenantResource.Create, Client.Create, answer, hurl, if_true]
  cases unmarshal conflictBody <;> rfl

/-- C4, the code at a failed listing: `Client.All` hands back the body of a 500
response with a nil error, and `TenantResource.All` returns whatever collection
the JSON decoder makes of that body, with a nil error when it decodes. -/
theorem Client.All_failure_returns_body (unmarshal : Bytes → Except GoError (List Tenant)) :
    demoClient.All (answer 500 "[]") "/tenants" = ("[]", none) ∧
    TenantResource.All demoClient (answer 500 "[]") unmarshal =
      (match unmarshal "[]" with
       | .ok tenants => (some tenants, none)
       | .error err => (none, some err)) := by
  refine ⟨rfl, ?_⟩
  simp only [TenantResource.All, Client.All, answer]
  cases unmarshal "[]" <;> rfl

/-! ## The server: helper facts about traces -/

theorem exited_append (a b : List Effect) : exited (a ++ b) = (exited a || exited b) := by
  simp [exited, List.any_append]

theorem clientHandler_alive (kv : KeyValue) : exited (clientHandler kv) = false := by
  unfold clientHandler
  cases kv.Decode with
  | error err => simp [exited, Effect.isFatal]
  | ok c =>
    cases kv.PrevValue with
    | none => simp [exited, Effect.isFatal]
    | some v =>
      cases kv.PrevDecode with
      | error err => simp [exited, Effect.isFatal]
      | ok p => simp [exited, Effect.isFatal]

theorem dispatch_clientHandler_cons (kv : KeyValue) (rest : List KeyValue) :
    dispatch clientHandler (kv :: rest) = clientHandler kv ++ dispatch clientHandler rest := by
  simp [dispatch, clientHandler_alive]

theorem dispatch_clientHandler_append (before after : List KeyValue) :
    dispatch clientHandler (before ++ after) =
      dispatch clientHandler before ++ dispatch clientHandler after := by
  induction before with
  | nil => simp [dispatch]
  | cons kv rest ih =>
    rw [List.cons_append, dispatch_clientHandler_cons, dispatch_clientHandler_cons, ih,
      List.append_assoc]

theorem dispatch_clientHandler_alive (events : List KeyValue) :
    exited (dispatch clientHandler events) = false := by
  induction events with
  | nil => simp [dispatch, exited]
  | cons kv rest ih =>
    rw [dispatch_clientHandler_cons, exited_append, clientHandler_alive, ih]
    rfl

theorem renewalLoop_append (before after : List KeepAliveResponse) :
    main.renewalLoop (before ++ after) = main.renewalLoop before ++ main.renewalLoop after := by
  induction before with
  | nil => simp [main.renewalLoop]
  | cons l rest ih => simp [main.renewalLoop, ih]

theorem renewalLoop_alive (ch : List KeepAliveResponse) : exited (main.renewalLoop ch) = false := by
  induction ch with
  | nil => simp [main.renewalLoop, exited]
  | cons l rest ih =>
    unfold main.renewalLoop
    rw [exited_append, ih]
    cases l.Error <;> simp [exited, Effect.isFatal]

theorem received_renewalLoop (ch : List KeepAliveResponse) : received (main.renewalLoop ch) = ch := by
  induction ch with
  | nil => simp [main.renewalLoop, received]
  | cons l rest ih =>
    unfold main.renewalLoop
    cases l.Error <;> simp [received, ih]

theorem watchClients_exited (ds : model.Datastore) :
    exited (main.watchClients ds) = (ds.WatchStart "clients").2.isSome := by
  have h : exited (Effect.watchStart "clients" :: dispatch clientHandler (ds.WatchStart "clients").1)
      = false := by
    have := dispatch_clientHandler_alive (ds.WatchStart "clients").1
    simp only [exited, List.any_cons, Effect.isFatal, Bool.false_or] at this ⊢
    exact this
  unfold main.watchClients
  simp only [h]
  cases (ds.WatchStart "clients").2 with
  | none => simpa using h
  | some err =>
    simp only [Bool.false_eq_true, if_false, Option.isSome_some]
    rw [exited_append, h]
    rfl

/-! ## The server: registration, handler, renewal, termination, routes -/

/-- C5: for every result of the query for server records named after the host,
when the result is empty `CreateServer` is called exactly once, with the new
record for the hostname, and `UpdateServer` is not called; when it is non-empty
`UpdateServer` is called exactly once, with the first record of the result, and
`CreateServer` is not called. -/
theorem registerServer_create_or_update (hostname : String) (NewServer : String → model.Server)
    (ds : model.Datastore) (servers : List model.Server)
    (hq : ds.QueryServers "Name" hostname = .ok servers) :
    (servers = [] →
      createCalls (main.registerServer hostname NewServer ds).1 = [NewServer hostname] ∧
      updateCalls (main.registerServer hostname NewServer ds).1 = []) ∧
    (∀ s rest, servers = s :: rest →
      updateCalls (main.registerServer hostname NewServer ds).1 = [s] ∧
      createCalls (main.registerServer hostname NewServer ds).1 = []) := by
  refine ⟨?_, ?_⟩
  · intro hnil
    subst hnil
    cases hC : ds.CreateServer (NewServer hostname) <;>
      simp [main.registerServer, hq, hC, createCalls, updateCalls]
  · intro s rest hcons
    subst hcons
    cases hU : ds.UpdateServer s <;>
      simp [main.registerServer, hq, hU, createCalls, updateCalls]

/-- C5, on a store without a record for `node-1` and on one that holds one. -/
theorem registerServer_create_or_update_witness :
    (createCalls (main.registerServer demoHost demoNewServer emptyStore).1 = [demoNewServer demoHost] ∧
     updateCalls (main.registerServer demoHost demoNewServer emptyStore).1 = []) ∧
    (updateCalls (main.registerServer demoHost demoNewServer populatedStore).1 = [storedServer] ∧
     createCalls (main.registerServer demoHost demoNewServer populatedStore).1 = []) :=
  ⟨(registerServer_create_or_update demoHost demoNewServer emptyStore [] rfl).1 rfl,
   (registerServer_create_or_update demoHost demoNewServer populatedStore [storedServer] rfl).2
     storedServer [] rfl⟩

/-- C6: for an event whose new value does not decode, `clientHandler` logs the
event and the decode error and does nothing else: it does not decode the previous
value and does not end the process; and in any stream the events around it are
handled as they are in the stream without it. -/
theorem clientHandler_malformed (kv : KeyValue) (err : GoError)
    (hdec : kv.Decode = .error err) :
    clientHandler kv =
      [.log (.clientEvent kv.EventType kv.Key), .decode, .log (.error err)] ∧
    Effect.prevDecode ∉ clientHandler kv ∧
    exited (clientHandler kv) = false ∧
    (∀ before after,
      dispatch clientHandler (before ++ kv :: after) =
        dispatch clientHandler before ++
          [.log (.clientEvent kv.EventType kv.Key), .decode, .log (.error err)] ++
          dispatch clientHandler after ∧
      dispatch clientHandler (before ++ after) =
        dispatch clientHandler before ++ dispatch clientHandler after) := by
  have h : clientHandler kv =
      [.log (.clientEvent kv.EventType kv.Key), .decode, .log (.error err)] := by
    simp [clientHandler, hdec]
  refine ⟨h, ?_, clientHandler_alive kv, ?_⟩
  · rw [h]
    simp
  · intro before after
    refine ⟨?_, dispatch_clientHandler_append before after⟩
    rw [dispatch_clientHandler_append, dispatch_clientHandler_cons, h, List.append_assoc]

/-- C6, on a malformed event delivered between a create and an update. -/
theorem clientHandler_malformed_witness :
    clientHandler malformedEvent =
      [.log (.clientEvent "update" "/dock2box/clients/u1"), .decode,
       .log (.error (.codec "invalid character"))] ∧
    dispatch clientHandler ([createEvent] ++ malformedEvent :: [renameEvent]) =
      dispatch clientHandler [createEvent] ++
        [.log (.clientEvent "update" "/dock2box/clients/u1"), .decode,
         .log (.error (.codec "invalid character"))] ++
        dispatch clientHandler [renameEvent] :=
  ⟨(clientHandler_malformed malformedEvent (.codec "invalid character") rfl).1,
   ((clientHandler_malformed malformedEvent (.codec "invalid character") rfl).2.2.2
      [createEvent] [renameEvent]).1⟩

/-- C7 as stated fails: the new value of this event decodes and the event
carries a previous value, yet the handler reports no previous value, because the
previous value does not decode. -/
theorem clientHandler_stale_prev_not_reported :
    staleEvent.PrevValue.isSome = true ∧
    clientHandler staleEvent =
      [.log (.clientEvent "update" "/dock2box/clients/u1"), .decode,
       .log (.clientValue { Created := "t0", Updated := "t2", UUID := "u1", Name := "y" }),
       .prevDecode, .log (.error (.codec "invalid character"))] ∧
    prevReports (clientHandler staleEvent) = [] := by
  decide

/-- C7, amended: for an event whose new value decodes, `clientHandler` reports
the new value; it decodes the previous value, into the same record shape, exactly
when the event carries one; when that decodes too it reports it after the new
value, and when it does not decode it logs the error and reports no previous
value; without a previous value only the new value is reported. -/
theorem clientHandler_decoded (kv : KeyValue) (c : model.Client)
    (hdec : kv.Decode = .ok c) :
    (Effect.prevDecode ∈ clientHandler kv ↔ kv.PrevValue.isSome = true) ∧
    (kv.PrevValue = none →
      clientHandler kv =
        [.log (.clientEvent kv.EventType kv.Key), .decode, .log (.clientValue c)]) ∧
    (∀ v p, kv.PrevValue = some v → kv.PrevDecode = .ok p →
      clientHandler kv =
        [.log (.clientEvent kv.EventType kv.Key), .decode, .log (.clientValue c),
         .prevDecode, .log (.clientPrevValue p)]) ∧
    (∀ v err, kv.PrevValue = some v → kv.PrevDecode = .error err →
      clientHandler kv =
        [.log (.clientEvent kv.EventType kv.Key), .decode, .log (.clientValue c),
         .prevDecode, .log (.error err)]) := by
  refine ⟨?_, ?_, ?_, ?_⟩
  · cases hp : kv.PrevValue with
    | none => simp [clientHandler, hdec, hp]
    | some v => simp [clientHandler, hdec, hp]
  · intro hp
    simp [clientHandler, hdec, hp]
  · intro v p hp hpd
    simp [clientHandler, hdec, hp, hpd]
  · intro v err hp hpd
    simp [clientHandler, hdec, hp, hpd]

/-- C7 amended, on the update of client `u1` from name `x` to name `y`: the
previous value is reported with name `x` and the new value with name `y`. -/
theorem clientHandler_decoded_witness :
    clientHandler renameEvent =
      [.log (.clientEvent "update" "/dock2box/clients/u1"), .decode,
       .log (.clientValue { Created := "t0", Updated := "t2", UUID := "u1", Name := "y" }),
       .prevDecode,
       .log (.clientPrevValue { Created := "t0", Updated := "t1", UUID := "u1", Name := "x" })] :=
  (clientHandler_decoded renameEvent
    { Created := "t0", Updated := "t2", UUID := "u1", Name := "y" } rfl).2.2.1
    "prev" { Created := "t0", Updated := "t1", UUID := "u1", Name := "x" } rfl rfl

/-- C8: whatever responses are delivered on the lease channel, the renewal loop
takes every one of them, in order, and never ends the process; a response that
carries an error has the error logged, after which the loop handles the
responses that follow as it would have without it. -/
theorem renewalLoop_continues (ch : List KeepAliveResponse) :
    received (main.renewalLoop ch) = ch ∧
    exited (main.renewalLoop ch) = false ∧
    (∀ before l err after, ch = before ++ l :: after → l.Error = some err →
      main.renewalLoop ch =
        main.renewalLoop before ++
          [.recv l, .log (.text "send keepalive for lease"), .log (.error err)] ++
          main.renewalLoop after) := by
  refine ⟨received_renewalLoop ch, renewalLoop_alive ch, ?_⟩
  intro before l err after hch herr
  subst hch
  rw [renewalLoop_append]
  simp [main.renewalLoop, herr]

/-- C8, on a failed renewal followed by a good one. -/
theorem renewalLoop_continues_witness :
    main.renewalLoop [failedRenewal, goodRenewal] =
      main.renewalLoop [] ++
        [.recv failedRenewal, .log (.text "send keepalive for lease"),
         .log (.error (.store "lease: timeout"))] ++
        main.renewalLoop [goodRenewal] :=
  (renewalLoop_continues [failedRenewal, goodRenewal]).2.2
    [] failedRenewal (.store "lease: timeout") [goodRenewal] rfl rfl

/-- C9 as stated fails: registration and the lease succeed, the watch on
`clients` returns an error from `Start`, and that error ends the process. -/
theorem watch_error_is_fatal :
    (main.registerServer demoHost demoNewServer watchFailsStore).2 = some storedServer ∧
    (main.startActivities demoHost demoNewServer watchFailsStore).watch =
      [.watchStart "clients", .fatal (.store "watch: connection lost")] ∧
    (main.startActivities demoHost demoNewServer watchFailsStore).exited = true := by
  decide

/-- C9, amended: the registrar and watcher activities end the process exactly
when the query for the server record fails, or the update or creation of the
record fails, or the lease keepalive cannot be created, or the watch on `clients`
returns an error from `Start`; no error carried by a keepalive response and no
decode error in the handler ends it. -/
theorem startActivities_exited_iff (hostname : String) (NewServer : String → model.Server)
    (ds : model.Datastore) :
    (main.startActivities hostname NewServer ds).exited = true ↔
      (∃ err, ds.QueryServers "Name" hostname = .error err) ∨
      (∃ s rest err, ds.QueryServers "Name" hostname = .ok (s :: rest) ∧
        ds.UpdateServer s = some err) ∨
      (∃ err, ds.QueryServers "Name" hostname = .ok [] ∧
        ds.CreateServer (NewServer hostname) = some err) ∨
      (∃ err, ds.KeepAlive = .error err) ∨
      (∃ err, (ds.WatchStart "clients").2 = some err) := by
  have hw := watchClients_exited ds
  have hr : ∀ ch, exited (main.renewalLoop ch) = false := renewalLoop_alive
  cases hq : ds.QueryServers "Name" hostname with
  | error e =>
    simp [main.startActivities, main.registerServer, hq, Activities.exited, exited, Effect.isFatal]
  | ok servers =>
    cases servers with
    | nil =>
      cases hC : ds.CreateServer (NewServer hostname) with
      | some e =>
        simp [main.startActivities, main.registerServer, hq, hC, Activities.exited, exited,
          Effect.isFatal]
      | none =>
        cases hK : ds.KeepAlive with
        | error e =>
          simp [main.startActivities, main.registerServer, hq, hC, hK, Activities.exited, exited,
            Effect.isFatal]
        | ok ch =>
          cases hW : (ds.WatchStart "clients").2 with
          | none =>
            rw [hW] at hw
            simp [main.startActivities, main.registerServer, hq, hC, hK, Activities.exited, hr, hw]
            simp [exited, Effect.isFatal]
          | some e =>
            rw [hW] at hw
            simp [main.startActivities, main.registerServer, hq, hC, hK, Activities.exited, hr, hw]
    | cons s rest =>
      cases hU : ds.UpdateServer s with
      | some e =>
        simp [main.startActivities, main.registerServer, hq, hU, Activities.exited, exited,
          Effect.isFatal]
      | none =>
        cases hK : ds.KeepAlive with
        | error e =>
          simp [main.startActivities, main.registerServer, hq, hU, hK, Activities.exited, exited,
            Effect.isFatal]
        | ok ch =>
          cases hW : (ds.WatchStart "clients").2 with
          | none =>
            rw [hW] at hw
            simp [main.startActivities, main.registerServer, hq, hU, hK, Activities.exited, hr, hw]
            simp [exited, Effect.isFatal]
          | some e =>
            rw [hW] at hw
            simp [main.startActivities, main.registerServer, hq, hU, hK, Activities.exited, hr, hw]

/-- C10 as stated fails: for `servers` the route table has neither
`POST /api/servers` nor `PUT /api/servers/{id}`. -/
theorem servers_lack_post_and_put :
    hasAllFour "servers" = false ∧
    registered "POST" (collectionPath "servers") = false ∧
    registered "PUT" (itemPath "servers") = false := by
  decide

/-- C10, amended: for each of the eight kinds hosts, images, pools, racks, roles,
sites, subnets and tenants the route table registers all four of POST and GET on
the collection and GET and PUT on the record; for servers it registers the two
GET routes only, both behind `Authorized`. -/
theorem routes_per_kind :
    ["hosts", "images", "pools", "racks", "roles", "sites", "subnets", "tenants"].all
      hasAllFour = true ∧
    routesOf "servers" =
      [("GET", "/api/servers", true), ("GET", "/api/servers/{uuid}", true)] := by
  decide

end Dock2Box
